import Mathlib

/-!
Verification of the INE web-scraping client (`ine_cli.py`, `ine_utils.py`).

The development shallowly embeds the two JSON-to-table flatteners and the
relevant CLI command logic:

* `getDatosTabla` models `ine_cli.get_datos_tabla` — the pandas pipeline
  `pd.DataFrame(raw)` / `.explode("Data")` / `pd.json_normalize` /
  `pd.concat` / `pd.to_datetime(unit="ms", errors="coerce")` /
  `pd.to_numeric(errors="coerce")`.
* `descargar_tabla_ine_json` models the plain-loop variant in `ine_utils.py`.
* `cmd_operaciones`, `vistaPrevia` model the corresponding CLI commands.

Dynamic JSON records are embedded as association lists from field names to
tagged values.  Machine behaviour of the pandas calls is modelled from their
documented semantics:

* `DataFrame.explode` turns an empty list (and any non-list scalar, NaN
  included) into a single row whose exploded cell is the scalar / NaN;
* `pd.json_normalize` raises `AttributeError` as soon as one of the records
  it is given is not a dict (in particular the NaN produced by exploding an
  empty or missing `Data` list);
* `pd.DataFrame(list-of-dicts)` uses the union of the keys, in order of first
  appearance, as columns, filling absent fields with NaN;
* `errors="coerce"` conversions never raise on cell values: unparseable
  cells become NaN/NaT (here `Scalar.snull`).  They DO raise structurally
  when the selected label is carried by two columns (a metadata field and an
  observation field of the same name after `pd.concat`): `df[label]` is then
  a two-column DataFrame, on which `pd.to_datetime` raises `ValueError` and
  `pd.to_numeric` raises `TypeError`.
-/

deriving instance DecidableEq for Except

namespace INE

/-- Scalar cell values: null (NaN/NaT/None), rational numbers, strings, and
datetimes (milliseconds since the Unix epoch, the result of
`pd.to_datetime(..., unit="ms")`). -/
inductive Scalar where
  | snull : Scalar
  | snum (q : ℚ) : Scalar
  | sstr (s : String) : Scalar
  | sdate (ms : ℚ) : Scalar
deriving DecidableEq

/-- An observation record: the flat dict appearing inside a series' `Data`
list (`Fecha`, `FK_Periodo`, `Anyo`, `Valor`, ...). -/
abbrev Obs := List (String × Scalar)

/-- A field of a raw series record: either a scalar or an embedded list of
observation records (the `Data` field). -/
inductive JField where
  | prim (v : Scalar) : JField
  | arr (obs : List Obs) : JField
deriving DecidableEq

/-- A raw series record of the `DATOS_TABLA` response: a dict from field
names to values. -/
abbrev Rec := List (String × JField)

/-- A flattened row: field name to cell value, in column order. -/
abbrev Row := List (String × JField)

/-- A dataframe: column names plus rows (each row keyed by column name). -/
structure Df where
  cols : List String
  rows : List Row
deriving DecidableEq

/-- Errors raised by the pandas pipeline in `get_datos_tabla`. -/
inductive PdError where
  | keyError (k : String) : PdError
  | attrError : PdError
  | valueError : PdError
  | typeError : PdError
deriving DecidableEq

/-- Errors raised by the plain Python loop in `descargar_tabla_ine_json`. -/
inductive PyError where
  | keyError (k : String) : PyError
  | attrError : PyError
  | typeError : PyError
deriving DecidableEq

/-! ### Generic list helpers -/

/-- Ordered flat-map (kept as a local definition for easy induction). -/
def concatMap (f : α → List β) : List α → List β
  | [] => []
  | x :: xs => f x ++ concatMap f xs

/-- The keys of a record, in order. -/
def recKeys (r : List (String × α)) : List String := r.map Prod.fst

/-- Append a key if it is not already present (column accumulation order of
`pd.DataFrame(list-of-dicts)`: first appearance wins). -/
def insertKey (acc : List String) (k : String) : List String :=
  if k ∈ acc then acc else acc ++ [k]

/-- Accumulate the keys of a list of records into `acc`. -/
def unionAux (acc : List String) : List (List (String × α)) → List String
  | [] => acc
  | r :: rs => unionAux ((recKeys r).foldl insertKey acc) rs

/-- Column set of `pd.DataFrame(list-of-dicts)`: union of the records' keys in
order of first appearance. -/
def unionKeys (rs : List (List (String × α))) : List String := unionAux [] rs

/-- Cell of the dataframe built from a list of dicts: the dict's value, NaN
(`snull`) when the key is absent from this record. -/
def getCell (r : Rec) (c : String) : JField :=
  (r.lookup c).getD (JField.prim .snull)

/-! ### Python / pandas scalar coercions -/

/-- The six ASCII whitespace characters stripped by Python's `str.strip` and
accepted around numeric literals by `float`. -/
def isPySpace (c : Char) : Bool :=
  c = ' ' || c = '\t' || c = '\n' || c = '\r' || c = '\x0b' || c = '\x0c'

/-- Python `str.strip()` (ASCII whitespace). -/
def pyStrip (s : String) : String :=
  ⟨((s.data.dropWhile isPySpace).reverse.dropWhile isPySpace).reverse⟩

/-- Value of a digit string read in base 10. -/
def digitsToNat (ds : List Char) : ℕ :=
  ds.foldl (fun n c => 10 * n + (c.toNat - 48)) 0

/-- Parse an unsigned decimal literal `digits[.digits]` (at least one digit)
into a scaled numerator and a power-of-ten denominator. -/
def parseUnsigned (l : List Char) : Option (ℕ × ℕ) :=
  match l.span Char.isDigit with
  | (ip, rest) =>
    match rest with
    | [] => if ip.isEmpty then none else some (digitsToNat ip, 1)
    | '.' :: fp =>
        if fp.all Char.isDigit && !(ip.isEmpty && fp.isEmpty) then
          some (digitsToNat ip * 10 ^ fp.length + digitsToNat fp, 10 ^ fp.length)
        else none
    | _ => none

/-- Numeric-string parsing as performed by pandas' `errors="coerce"`
conversions: optional surrounding whitespace, optional sign, decimal digits
with an optional fractional part.  Anything else fails (and the pandas call
then yields NaN/NaT).  Scientific notation and `inf`/`nan` literals, which
pandas would also convert, are not modelled; no claim involves such
strings. -/
def parseFloat (s : String) : Option ℚ :=
  let cs := ((s.data.dropWhile isPySpace).reverse.dropWhile isPySpace).reverse
  match cs with
  | '-' :: rest => (parseUnsigned rest).map (fun p => mkRat (-(p.1 : ℤ)) p.2)
  | '+' :: rest => (parseUnsigned rest).map (fun p => mkRat (p.1 : ℤ) p.2)
  | _ => (parseUnsigned cs).map (fun p => mkRat (p.1 : ℤ) p.2)

/-- Cell-wise model of `pd.to_numeric(col, errors="coerce")`. -/
def toNumericScalar : Scalar → Scalar
  | .snum q => .snum q
  | .sstr s => match parseFloat s with
    | some q => .snum q
    | none => .snull
  | .snull => .snull
  | .sdate _ => .snull

/-- Cell-wise model of `pd.to_datetime(col, unit="ms", errors="coerce")`:
numbers (and numeric strings) are read as milliseconds since the epoch,
anything unparseable becomes NaT. -/
def toDatetimeScalar : Scalar → Scalar
  | .snum q => .sdate q
  | .sstr s => match parseFloat s with
    | some q => .sdate q
    | none => .snull
  | .snull => .snull
  | .sdate ms => .sdate ms

/-- `pd.to_numeric` on a dataframe cell (a list-valued cell coerces to NaN). -/
def toNumericCell : JField → JField
  | .prim v => .prim (toNumericScalar v)
  | .arr _ => .prim .snull

/-- `pd.to_datetime` on a dataframe cell. -/
def toDatetimeCell : JField → JField
  | .prim v => .prim (toDatetimeScalar v)
  | .arr _ => .prim .snull

/-! ### The pandas flattener `get_datos_tabla` -/

/-- One cell of the exploded `Data` column: either an observation record or a
left-over scalar (NaN from an empty/missing list, or an unchanged non-list
value). -/
inductive DataCell where
  | obs (o : Obs) : DataCell
  | scalar (v : Scalar) : DataCell
deriving DecidableEq

/-- `DataFrame.explode("Data")` applied to one record: a non-empty list gives
one cell per element; an empty list gives a single NaN cell; a non-list value
(including the NaN standing for a missing `Data` field) is kept as a single
scalar cell. -/
def explodeData (r : Rec) : List DataCell :=
  match getCell r "Data" with
  | .arr [] => [.scalar .snull]
  | .arr os => os.map .obs
  | .prim v => [.scalar v]

/-- The exploded long table: each record paired with each of its exploded
`Data` cells, in order (the non-`Data` columns are broadcast by `explode`). -/
def exploded (raw : List Rec) : List (Rec × DataCell) :=
  concatMap (fun r => (explodeData r).map (fun d => (r, d))) raw

/-- `pd.json_normalize` over the exploded `Data` column: succeeds with the
list of observation records iff every cell is a record; any scalar cell (the
NaN of an empty or missing `Data` list) raises `AttributeError`. -/
def obsOfCells : List (Rec × DataCell) → Option (List (Rec × Obs))
  | [] => some []
  | (r, .obs o) :: rest => (obsOfCells rest).map (fun ps => (r, o) :: ps)
  | (_, .scalar _) :: _ => none

/-- The `if "Fecha" in df.columns: df["Fecha"] = pd.to_datetime(...)` step.
When the label `"Fecha"` is carried by more than one column (a metadata
field and an observation field share the name), `df["Fecha"]` selects a
two-column DataFrame and `pd.to_datetime` on it raises (`ValueError`: it
would need year/month/day columns to assemble); otherwise each cell of the
single column is converted. -/
def applyFechaCol (df : Df) : Except PdError Df :=
  if "Fecha" ∈ df.cols then
    if 2 ≤ df.cols.count "Fecha" then .error .valueError
    else .ok ⟨df.cols, df.rows.map (fun row => row.map
      (fun kv => if kv.1 = "Fecha" then (kv.1, toDatetimeCell kv.2) else kv))⟩
  else .ok df

/-- The `if "Valor" in df.columns: df["Valor"] = pd.to_numeric(...)` step.
On a duplicated `"Valor"` label `pd.to_numeric` receives a two-column
DataFrame and raises `TypeError`; otherwise each cell is converted. -/
def applyValorCol (df : Df) : Except PdError Df :=
  if "Valor" ∈ df.cols then
    if 2 ≤ df.cols.count "Valor" then .error .typeError
    else .ok ⟨df.cols, df.rows.map (fun row => row.map
      (fun kv => if kv.1 = "Valor" then (kv.1, toNumericCell kv.2) else kv))⟩
  else .ok df

/-- The two conversion statements run in source order: the first one to
raise aborts the command. -/
def convertCols (df : Df) : Except PdError Df :=
  match applyFechaCol df with
  | .error e => .error e
  | .ok df1 => applyValorCol df1

/-- Model of `ine_cli.get_datos_tabla` applied to the parsed `DATOS_TABLA`
response (transport already performed): empty response short-circuits to an
empty dataframe; otherwise explode the `Data` column, normalize the
observation records, concatenate metadata and observation columns, and run
the two `errors="coerce"` conversions. -/
def getDatosTabla : List Rec → Except PdError Df
  | [] => .ok ⟨[], []⟩
  | r0 :: rest =>
    let raw := r0 :: rest
    let colsAll := unionKeys raw
    if "Data" ∈ colsAll then
      match obsOfCells (exploded raw) with
      | none => .error .attrError
      | some pairs =>
        let colsMeta := colsAll.filter (fun c => c ≠ "Data")
        let vCols := unionKeys (pairs.map Prod.snd)
        let rows0 := pairs.map (fun p =>
          colsMeta.map (fun c => (c, getCell p.1 c)) ++
          vCols.map (fun c => (c, JField.prim ((p.2.lookup c).getD .snull))))
        convertCols ⟨colsMeta ++ vCols, rows0⟩
    else .error (.keyError "Data")

/-! ### Specification-side views of the flattener used in the theorems -/

/-- The observation list embedded in a record (empty when `Data` is absent or
not a list). -/
def dataList (r : Rec) : List Obs :=
  match r.lookup "Data" with
  | some (.arr os) => os
  | _ => []

/-- A record whose `Data` field is a non-empty list — the precondition under
which the pandas pipeline succeeds. -/
def nonemptyData (r : Rec) : Prop :=
  ∃ os, r.lookup "Data" = some (.arr os) ∧ os ≠ []

/-- Metadata columns: all response columns except `Data`. -/
def metaCols (raw : List Rec) : List String :=
  (unionKeys raw).filter (fun c => c ≠ "Data")

/-- Observation columns: union of the observation records' keys in order. -/
def valColsSpec (raw : List Rec) : List String :=
  unionKeys (concatMap dataList raw)

/-- The column-wise coercion finally applied to every cell: `Fecha` runs the
datetime conversion, `Valor` the numeric one, all other columns are kept. -/
def coerceAt (c : String) (v : JField) : JField :=
  if c = "Fecha" then toDatetimeCell v
  else if c = "Valor" then toNumericCell v
  else v

/-- The flattened row produced for observation `o` of series `r`: the series'
metadata cells (broadcast) followed by the observation cells, each passed
through the column coercions. -/
def finalRow (mcols vcols : List String) (r : Rec) (o : Obs) : Row :=
  mcols.map (fun c => (c, coerceAt c (getCell r c))) ++
  vcols.map (fun c => (c, coerceAt c (JField.prim ((o.lookup c).getD .snull))))

/-- The dataframe `get_datos_tabla` produces on the success path. -/
def flattenDf (raw : List Rec) : Df :=
  ⟨metaCols raw ++ valColsSpec raw,
   concatMap (fun r => (dataList r).map (finalRow (metaCols raw) (valColsSpec raw) r)) raw⟩

/-! ### The plain-loop flattener `descargar_tabla_ine_json` (`ine_utils.py`) -/

/-- Python `serie[k]`: `KeyError` when the key is absent. -/
def pyDictGet (r : Rec) (k : String) : Except PyError JField :=
  match r.lookup k with
  | some v => .ok v
  | none => .error (.keyError k)

/-- Python `d[k]` on an observation dict. -/
def obsGet (d : Obs) (k : String) : Except PyError Scalar :=
  match d.lookup k with
  | some v => .ok v
  | none => .error (.keyError k)

/-- Python `v.strip()`: only string values have a `strip` method. -/
def pyStripField : JField → Except PyError String
  | .prim (.sstr s) => .ok (pyStrip s)
  | _ => .error .attrError

/-- `serie.get('Data', [])` followed by iteration: a missing field iterates
the default empty list, a list iterates its elements, and any other value is
not iterable (`TypeError`). -/
def serieData (serie : Rec) : Except PyError (List Obs) :=
  match serie.lookup "Data" with
  | none => .ok []
  | some (.arr os) => .ok os
  | some (.prim _) => .error .typeError

/-- The row dict appended for one observation `d` of series `serie`, fields
evaluated in source order (the first failing access raises). -/
def filaDe (serie : Rec) (d : Obs) : Except PyError Row :=
  match pyDictGet serie "Nombre" with
  | .error e => .error e
  | .ok nombre =>
    match pyStripField nombre with
    | .error e => .error e
    | .ok nombreS =>
      match pyDictGet serie "COD" with
      | .error e => .error e
      | .ok cod =>
        match obsGet d "FK_Periodo" with
        | .error e => .error e
        | .ok periodo =>
          match obsGet d "Anyo" with
          | .error e => .error e
          | .ok anyo =>
            match obsGet d "Valor" with
            | .error e => .error e
            | .ok valor =>
              .ok [("serie", .prim (.sstr nombreS)), ("codigo", cod),
                   ("periodo", .prim periodo), ("anyo", .prim anyo), ("valor", .prim valor)]

/-- The inner `for d in serie.get('Data', [])` loop, in order. -/
def filasDe (serie : Rec) : List Obs → Except PyError (List Row)
  | [] => .ok []
  | d :: ds =>
    match filaDe serie d with
    | .error e => .error e
    | .ok fila =>
      match filasDe serie ds with
      | .error e => .error e
      | .ok rest => .ok (fila :: rest)

/-- All rows contributed by one series. -/
def serieRows (serie : Rec) : Except PyError (List Row) :=
  match serieData serie with
  | .error e => .error e
  | .ok os => filasDe serie os

/-- The outer `for serie in datos` loop. -/
def descargarAux : List Rec → Except PyError (List Row)
  | [] => .ok []
  | s :: rest =>
    match serieRows s with
    | .error e => .error e
    | .ok rs =>
      match descargarAux rest with
      | .error e => .error e
      | .ok rest' => .ok (rs ++ rest')

/-- Model of `ine_utils.descargar_tabla_ine_json` applied to the parsed
response (transport already performed): the accumulated `filas` list. -/
def descargar_tabla_ine_json (datos : List Rec) : Except PyError (List Row) :=
  descargarAux datos

/-- The row `descargar_tabla_ine_json` builds on the success path:
exactly the five fields, the series name stripped, the observation's
`Valor` carried over unchanged (no date or numeric conversion). -/
def filaSpec (serie : Rec) (d : Obs) : Row :=
  [("serie", .prim (.sstr (pyStrip (match serie.lookup "Nombre" with
      | some (.prim (.sstr s)) => s
      | _ => "")))),
   ("codigo", (serie.lookup "COD").getD (.prim .snull)),
   ("periodo", .prim ((d.lookup "FK_Periodo").getD .snull)),
   ("anyo", .prim ((d.lookup "Anyo").getD .snull)),
   ("valor", .prim ((d.lookup "Valor").getD .snull))]

/-! ### The `operaciones` command -/

/-- ASCII lower-casing of one character. -/
def lowerChar (c : Char) : Char :=
  if 65 ≤ c.toNat ∧ c.toNat ≤ 90 then Char.ofNat (c.toNat + 32) else c

/-- Case-folding used by `case=False` matching (the name data is ASCII). -/
def lowerChars (s : String) : List Char := s.data.map lowerChar

/-- `needle` occurs at the start of `hay`. -/
def startsWith : List Char → List Char → Bool
  | [], _ => true
  | _ :: _, [] => false
  | a :: as, b :: bs => a = b && startsWith as bs

/-- `needle` occurs somewhere inside `hay`. -/
def occursIn (needle : List Char) : List Char → Bool
  | [] => needle.isEmpty
  | c :: rest => startsWith needle (c :: rest) || occursIn needle rest

/-- Case-insensitive substring test, the effect of
`df["Nombre"].str.contains(pat, case=False, na=False)` on one cell for
patterns free of regular-expression metacharacters (`str.contains`
interprets the pattern as a regex; on a literal pattern the regex search is
exactly this substring test).  A non-string cell (NaN included) matches
nothing (`na=False`). -/
def nombreMatch (nombre : JField) (pat : String) : Bool :=
  match nombre with
  | .prim (.sstr s) => occursIn (lowerChars pat) (lowerChars s)
  | _ => false

/-- The characters the `re` module treats as metacharacters.  `str.contains`
compiles the search text as a regular expression, so only texts free of
these characters are matched as literal substrings by the program —
`nombreMatch` is a faithful model of the filter exactly on such texts (an
invalid pattern such as `"("` instead raises `re.error`, and a valid
metacharacter pattern matches as a regex); claims about the filter are
therefore stated under `regexLiteral`. -/
def reMeta : List Char :=
  ['.', '^', '$', '*', '+', '?', '\x7b', '\x7d', '[', ']', '\\', '|', '(', ')']

/-- A search text free of regular-expression metacharacters, for which
`str.contains` is exactly a (case-insensitive) literal substring test. -/
def regexLiteral (b : String) : Bool :=
  b.data.all (fun c => !(reMeta.contains c))

/-- One row of the operations table: the three selected columns. -/
structure OpRow where
  id : JField
  codigo : JField
  nombre : JField
deriving DecidableEq

/-- Model of `get_operaciones`: `pd.DataFrame(data)[["Id","Codigo","Nombre"]]`
raises `KeyError` unless all three are columns of the frame (in particular on
an empty response, whose frame has no columns at all); otherwise it keeps
those three columns, absent fields read as NaN. -/
def get_operaciones (data : List Rec) : Except PdError (List OpRow) :=
  let cols : List String := unionKeys data
  if "Id" ∈ cols ∧ "Codigo" ∈ cols ∧ "Nombre" ∈ cols then
    .ok (data.map (fun r => ⟨getCell r "Id", getCell r "Codigo", getCell r "Nombre"⟩))
  else .error (.keyError "Id Codigo Nombre")

/-- What `cmd_operaciones` prints. -/
inductive OpsOutcome where
  | noResults : OpsOutcome
  | listing (rows : List OpRow) : OpsOutcome
deriving DecidableEq

/-- Model of `cmd_operaciones`: fetch, optionally filter by the (truthy)
search text, print the no-results message on an empty frame, otherwise the
listing. -/
def cmd_operaciones (data : List Rec) (buscar : Option String) :
    Except PdError OpsOutcome :=
  match get_operaciones data with
  | .error e => .error e
  | .ok df =>
    let df2 := match buscar with
      | some b => if b ≠ "" then df.filter (fun row => nombreMatch row.nombre b) else df
      | none => df
    if df2.isEmpty then .ok .noResults else .ok (.listing df2)

/-- Exit code of the `operaciones` command under `main`'s handlers: 0 on any
completed run (no-results included), 1 when an exception propagates. -/
def opsExit (data : List Rec) (buscar : Option String) : ℕ :=
  match cmd_operaciones data buscar with
  | .ok _ => 0
  | .error _ => 1

/-! ### The `datos` command preview -/

/-- `[c for c in ["Nombre", "Fecha", "Valor"] if c in df.columns]`. -/
def colsVista (df : Df) : List String :=
  ["Nombre", "Fecha", "Valor"].filter (fun c => c ∈ df.cols)

/-- The preview block of `cmd_datos`: `df[cols_vista].head()` — the FIRST
five rows of the name/date/value projection (printed under the label
"últimos 5 registros"). -/
def vistaPrevia (df : Df) : List Row :=
  (df.rows.map (fun row =>
    (colsVista df).map (fun c => (c, (row.lookup c).getD (.prim .snull))))).take 5

/-- The last five rows of the same projection — what the label (and the
spec) promise. -/
def vistaUltimos (df : Df) : List Row :=
  let proj := df.rows.map (fun row =>
    (colsVista df).map (fun c => (c, (row.lookup c).getD (.prim .snull))))
  proj.drop (proj.length - 5)

/-- Success value of an `Except`. -/
def okOf : Except ε α → Option α
  | .ok a => some a
  | .error _ => none

/-- The preview `cmd_datos` shows for a raw response (when the flattener
succeeds). -/
def cmdDatosPreview (raw : List Rec) : Option (List Row) :=
  (okOf (getDatosTabla raw)).map vistaPrevia

/-! ### List lemmas -/

@[simp] theorem concatMap_nil (f : α → List β) : concatMap f [] = [] := rfl

@[simp] theorem concatMap_cons (f : α → List β) (x : α) (xs : List α) :
    concatMap f (x :: xs) = f x ++ concatMap f xs := rfl

theorem mem_concatMap {f : α → List β} {b : β} {l : List α} :
    b ∈ concatMap f l ↔ ∃ a ∈ l, b ∈ f a := by
  induction l with
  | nil => simp
  | cons x xs ih => simp [ih, List.mem_append, or_and_right, exists_or]

theorem length_concatMap (f : α → List β) (l : List α) :
    (concatMap f l).length = (l.map (fun a => (f a).length)).sum := by
  induction l with
  | nil => rfl
  | cons x xs ih => simp [List.length_append, ih]

theorem map_concatMap (f : α → List β) (g : β → γ) (l : List α) :
    (concatMap f l).map g = concatMap (fun a => (f a).map g) l := by
  induction l with
  | nil => rfl
  | cons x xs ih => simp [List.map_append, ih]

theorem concatMap_congr {f g : α → List β} {l : List α}
    (h : ∀ a ∈ l, f a = g a) : concatMap f l = concatMap g l := by
  induction l with
  | nil => rfl
  | cons x xs ih =>
      simp only [concatMap_cons, h x (by simp)]
      rw [ih (fun a ha => h a (by simp [ha]))]

theorem mem_insertKey {acc : List String} {k k' : String} :
    k ∈ insertKey acc k' ↔ k ∈ acc ∨ k = k' := by
  by_cases h : k' ∈ acc
  · simp only [insertKey, if_pos h]
    constructor
    · exact Or.inl
    · rintro (hk | rfl)
      · exact hk
      · exact h
  · simp [insertKey, if_neg h, List.mem_append]

theorem mem_foldl_insertKey {ks : List String} {acc : List String} {k : String} :
    k ∈ ks.foldl insertKey acc ↔ k ∈ acc ∨ k ∈ ks := by
  induction ks generalizing acc with
  | nil => simp
  | cons k' ks ih =>
      simp only [List.foldl_cons, ih, mem_insertKey, List.mem_cons]
      tauto

theorem mem_unionAux {rs : List (List (String × α))} {acc : List String} {k : String} :
    k ∈ unionAux acc rs ↔ k ∈ acc ∨ ∃ r ∈ rs, k ∈ recKeys r := by
  induction rs generalizing acc with
  | nil => simp [unionAux]
  | cons r rs ih =>
      simp only [unionAux, ih, mem_foldl_insertKey, List.mem_cons]
      constructor
      · rintro ((h | h) | ⟨r', hr', hk⟩)
        · exact Or.inl h
        · exact Or.inr ⟨r, Or.inl rfl, h⟩
        · exact Or.inr ⟨r', Or.inr hr', hk⟩
      · rintro (h | ⟨r', (rfl | hr'), hk⟩)
        · exact Or.inl (Or.inl h)
        · exact Or.inl (Or.inr hk)
        · exact Or.inr ⟨r', hr', hk⟩

theorem mem_unionKeys {rs : List (List (String × α))} {k : String} :
    k ∈ unionKeys rs ↔ ∃ r ∈ rs, k ∈ recKeys r := by
  simp [unionKeys, mem_unionAux]

theorem lookup_eq_some_key_mem {r : List (String × α)} {c : String} {v : α}
    (h : r.lookup c = some v) : c ∈ recKeys r := by
  induction r with
  | nil => simp [List.lookup] at h
  | cons kv r ih =>
      by_cases hk : c = kv.1
      · simp [recKeys, hk]
      · simp only [List.lookup, beq_iff_eq, if_neg hk] at h
        rw [show (c == kv.1) = false from beq_eq_false_iff_ne.mpr hk] at h
        simp only [recKeys, List.map_cons, List.mem_cons]
        exact Or.inr (ih h)

theorem key_mem_lookup_isSome {r : List (String × α)} {c : String}
    (h : c ∈ recKeys r) : (r.lookup c).isSome := by
  induction r with
  | nil => simp [recKeys] at h
  | cons kv r ih =>
      by_cases hk : c = kv.1
      · simp [List.lookup, hk]
      · simp only [List.lookup]
        rw [show (c == kv.1) = false from beq_eq_false_iff_ne.mpr hk]
        simp only [recKeys, List.map_cons, List.mem_cons] at h
        rcases h with h | h
        · exact absurd h hk
        · exact ih h

theorem lookup_keyed_map_mem {cs : List String} {c : String} (g : String → α)
    (h : c ∈ cs) : (cs.map (fun c => (c, g c))).lookup c = some (g c) := by
  induction cs with
  | nil => simp at h
  | cons c' cs ih =>
      by_cases hc : c = c'
      · simp [List.lookup, hc]
      · simp only [List.map_cons, List.lookup]
        rw [show (c == c') = false from beq_eq_false_iff_ne.mpr hc]
        rcases List.mem_cons.mp h with h' | h'
        · exact absurd h' hc
        · exact ih h'

theorem lookup_keyed_map_not_mem {cs : List String} {c : String} (g : String → α)
    (h : c ∉ cs) : (cs.map (fun c => (c, g c))).lookup c = none := by
  induction cs with
  | nil => rfl
  | cons c' cs ih =>
      have hc : c ≠ c' := fun e => h (e ▸ List.mem_cons_self c' cs)
      simp only [List.map_cons, List.lookup]
      rw [show (c == c') = false from beq_eq_false_iff_ne.mpr hc]
      exact ih (fun hm => h (List.mem_cons_of_mem _ hm))

theorem lookup_append_of_some {l₁ l₂ : List (String × α)} {c : String} {v : α}
    (h : l₁.lookup c = some v) : (l₁ ++ l₂).lookup c = some v := by
  induction l₁ with
  | nil => simp [List.lookup] at h
  | cons kv l₁ ih =>
      simp only [List.cons_append, List.lookup] at h ⊢
      cases hk : (c == kv.1) with
      | true => rw [hk] at h; exact h
      | false => rw [hk] at h; exact ih h

theorem lookup_append_of_none {l₁ l₂ : List (String × α)} {c : String}
    (h : l₁.lookup c = none) : (l₁ ++ l₂).lookup c = l₂.lookup c := by
  induction l₁ with
  | nil => rfl
  | cons kv l₁ ih =>
      simp only [List.cons_append, List.lookup] at h ⊢
      cases hk : (c == kv.1) with
      | true => rw [hk] at h; cases h
      | false => rw [hk] at h; exact ih h

theorem take_length_append (l₁ l₂ : List α) : (l₁ ++ l₂).take l₁.length = l₁ := by
  induction l₁ with
  | nil => rfl
  | cons x xs ih => simp [ih]

theorem map_congr_mem {f g : α → β} {l : List α} (h : ∀ a ∈ l, f a = g a) :
    l.map f = l.map g := by
  induction l with
  | nil => rfl
  | cons x xs ih =>
      simp only [List.map_cons, h x (by simp)]
      rw [ih (fun a ha => h a (by simp [ha]))]

/-! ### Characterization of the pandas pipeline -/

/-- The (series, observation) pairs of the exploded long table on the success
path. -/
def pairsSpec (raw : List Rec) : List (Rec × Obs) :=
  concatMap (fun r => (dataList r).map (fun o => (r, o))) raw

theorem explodeData_of_nonempty {r : Rec} (h : nonemptyData r) :
    explodeData r = (dataList r).map .obs := by
  obtain ⟨os, hl, hne⟩ := h
  cases os with
  | nil => exact absurd rfl hne
  | cons o os' => simp [explodeData, getCell, dataList, hl]

theorem scalar_mem_explodeData {r : Rec} (h : ¬ nonemptyData r) :
    ∃ v, DataCell.scalar v ∈ explodeData r := by
  cases hl : r.lookup "Data" with
  | none => exact ⟨.snull, by simp [explodeData, getCell, hl]⟩
  | some f =>
    cases f with
    | prim v => exact ⟨v, by simp [explodeData, getCell, hl]⟩
    | arr os =>
      cases os with
      | nil => exact ⟨.snull, by simp [explodeData, getCell, hl]⟩
      | cons o os' => exact absurd ⟨o :: os', hl, by simp⟩ h

theorem exploded_of_all_nonempty {raw : List Rec}
    (hall : ∀ r ∈ raw, nonemptyData r) :
    exploded raw = (pairsSpec raw).map (fun p => (p.1, DataCell.obs p.2)) := by
  unfold exploded pairsSpec
  rw [map_concatMap]
  apply concatMap_congr
  intro r hr
  rw [explodeData_of_nonempty (hall r hr)]
  simp [List.map_map, Function.comp]

theorem obsOfCells_map_obs (l : List (Rec × Obs)) :
    obsOfCells (l.map (fun p => (p.1, DataCell.obs p.2))) = some l := by
  induction l with
  | nil => rfl
  | cons p ps ih => simp [obsOfCells, ih]

theorem obsOfCells_none_of_scalar {l : List (Rec × DataCell)}
    (h : ∃ p ∈ l, ∃ v, p.2 = DataCell.scalar v) : obsOfCells l = none := by
  induction l with
  | nil => simp at h
  | cons p ps ih =>
      obtain ⟨q, hq, v, hv⟩ := h
      obtain ⟨r, d⟩ := p
      rcases List.mem_cons.mp hq with rfl | hq'
      · simp only at hv; subst hv; rfl
      · cases d with
        | scalar w => rfl
        | obs o => simp [obsOfCells, ih ⟨q, hq', v, hv⟩]

theorem pairsSpec_map_snd (raw : List Rec) :
    (pairsSpec raw).map Prod.snd = concatMap dataList raw := by
  unfold pairsSpec
  rw [map_concatMap]
  apply concatMap_congr
  intro r _
  simp [List.map_map, Function.comp]

/-- Collapsing the two conditional column conversions into a single cell-wise
coercion, valid as soon as every cell's key is one of the columns and
neither converted label is duplicated. -/
theorem coerce_chain (cols : List String) (rows : List Row)
    (hkeys : ∀ row ∈ rows, ∀ kv ∈ row, kv.1 ∈ cols)
    (hcF : cols.count "Fecha" ≤ 1) (hcV : cols.count "Valor" ≤ 1) :
    convertCols ⟨cols, rows⟩ =
      .ok ⟨cols, rows.map (fun row => row.map (fun kv => (kv.1, coerceAt kv.1 kv.2)))⟩ := by
  have hnF : ¬ 2 ≤ cols.count "Fecha" := by omega
  have hnV : ¬ 2 ≤ cols.count "Valor" := by omega
  by_cases hF : "Fecha" ∈ cols
  · by_cases hV : "Valor" ∈ cols
    · simp only [convertCols, applyFechaCol, applyValorCol, if_pos hF, if_pos hV,
        if_neg hnF, if_neg hnV, Except.ok.injEq, Df.mk.injEq, List.map_map, true_and]
      apply map_congr_mem; intro row _
      simp only [Function.comp_apply, List.map_map]
      apply map_congr_mem; intro kv _
      by_cases h1 : kv.1 = "Fecha"
      · simp [h1, coerceAt, Function.comp]
      · by_cases h2 : kv.1 = "Valor"
        · simp [h1, h2, coerceAt, Function.comp]
        · simp [h1, h2, coerceAt, Function.comp]
    · simp only [convertCols, applyFechaCol, applyValorCol, if_pos hF, if_neg hV,
        if_neg hnF, Except.ok.injEq, Df.mk.injEq, true_and]
      apply map_congr_mem; intro row hrow
      apply map_congr_mem; intro kv hkv
      have hne : kv.1 ≠ "Valor" := fun e => hV (e ▸ hkeys row hrow kv hkv)
      by_cases h1 : kv.1 = "Fecha"
      · simp [h1, coerceAt]
      · simp [h1, hne, coerceAt]
  · by_cases hV : "Valor" ∈ cols
    · simp only [convertCols, applyFechaCol, applyValorCol, if_neg hF, if_pos hV,
        if_neg hnV, Except.ok.injEq, Df.mk.injEq, true_and]
      apply map_congr_mem; intro row hrow
      apply map_congr_mem; intro kv hkv
      have hne : kv.1 ≠ "Fecha" := fun e => hF (e ▸ hkeys row hrow kv hkv)
      by_cases h2 : kv.1 = "Valor"
      · simp [hne, h2, coerceAt]
      · simp [hne, h2, coerceAt]
    · simp only [convertCols, applyFechaCol, applyValorCol, if_neg hF, if_neg hV,
          Except.ok.injEq, Df.mk.injEq, true_and]
      conv_lhs => rw [show rows = rows.map id from (List.map_id rows).symm]
      apply map_congr_mem; intro row hrow
      simp only [id]
      conv_lhs => rw [show row = row.map id from (List.map_id row).symm]
      apply map_congr_mem; intro kv hkv
      have hne1 : kv.1 ≠ "Fecha" := fun e => hF (e ▸ hkeys row hrow kv hkv)
      have hne2 : kv.1 ≠ "Valor" := fun e => hV (e ▸ hkeys row hrow kv hkv)
      simp [hne1, hne2, coerceAt]

/-- A duplicated `Fecha` label (metadata field and observation field of the
same name) makes `pd.to_datetime` on the two-column selection raise. -/
theorem convertCols_dup_fecha {cols : List String} {rows : List Row}
    (h : 2 ≤ cols.count "Fecha") :
    convertCols ⟨cols, rows⟩ = .error .valueError := by
  have hm : "Fecha" ∈ cols := List.count_pos_iff.mp (by omega)
  simp only [convertCols, applyFechaCol, if_pos hm, if_pos h]

/-- With a unique (or absent) `Fecha` label but a duplicated `Valor` label,
the date step passes and `pd.to_numeric` on the two-column selection
raises. -/
theorem convertCols_dup_valor {cols : List String} {rows : List Row}
    (hcF : cols.count "Fecha" ≤ 1) (h : 2 ≤ cols.count "Valor") :
    convertCols ⟨cols, rows⟩ = .error .typeError := by
  have hm : "Valor" ∈ cols := List.count_pos_iff.mp (by omega)
  have hnF : ¬ 2 ≤ cols.count "Fecha" := by omega
  by_cases hFm : "Fecha" ∈ cols
  · simp only [convertCols, applyFechaCol, applyValorCol, if_pos hFm, if_neg hnF,
      if_pos hm, if_pos h]
  · simp only [convertCols, applyFechaCol, applyValorCol, if_neg hFm, if_pos hm, if_pos h]

theorem data_mem_unionKeys {raw : List Rec} {r : Rec} (hr : r ∈ raw)
    (h : nonemptyData r) : "Data" ∈ unionKeys raw := by
  obtain ⟨os, hl, _⟩ := h
  exact mem_unionKeys.mpr ⟨r, hr, lookup_eq_some_key_mem hl⟩

/-- Under the non-empty-`Data` precondition the pipeline reduces to the
conversion chain applied to the concatenated long table. -/
theorem getDatosTabla_eq_convert {raw : List Rec}
    (hne : raw ≠ []) (hall : ∀ r ∈ raw, nonemptyData r) :
    getDatosTabla raw = convertCols ⟨metaCols raw ++ valColsSpec raw,
      (pairsSpec raw).map (fun p =>
        (metaCols raw).map (fun c => (c, getCell p.1 c)) ++
        (valColsSpec raw).map (fun c => (c, JField.prim ((p.2.lookup c).getD .snull))))⟩ := by
  cases raw with
  | nil => exact absurd rfl hne
  | cons r0 rest =>
    have hd : "Data" ∈ unionKeys (r0 :: rest) :=
      data_mem_unionKeys (by simp) (hall r0 (by simp))
    have hcells : obsOfCells (exploded (r0 :: rest)) = some (pairsSpec (r0 :: rest)) := by
      rw [exploded_of_all_nonempty hall, obsOfCells_map_obs]
    simp only [getDatosTabla, if_pos hd, hcells]
    rw [pairsSpec_map_snd]
    rw [show List.filter (fun c => decide (c ≠ "Data")) (unionKeys (r0 :: rest)) =
      metaCols (r0 :: rest) from rfl]
    rw [show unionKeys (concatMap dataList (r0 :: rest)) =
      valColsSpec (r0 :: rest) from rfl]

/-- On the success precondition — a non-empty response in which every series
has a non-empty `Data` list and neither `Fecha` nor `Valor` labels both a
metadata and an observation column — `get_datos_tabla` returns exactly the
order-preserving broadcast flatten with the column coercions applied. -/
theorem getDatosTabla_ok_of_nonempty {raw : List Rec}
    (hne : raw ≠ []) (hall : ∀ r ∈ raw, nonemptyData r)
    (hcF : (metaCols raw ++ valColsSpec raw).count "Fecha" ≤ 1)
    (hcV : (metaCols raw ++ valColsSpec raw).count "Valor" ≤ 1) :
    getDatosTabla raw = .ok (flattenDf raw) := by
  rw [getDatosTabla_eq_convert hne hall]
  have hkeys : ∀ row ∈ (pairsSpec raw).map (fun p =>
      (metaCols raw).map (fun c => (c, getCell p.1 c)) ++
      (valColsSpec raw).map (fun c => (c, JField.prim ((p.2.lookup c).getD .snull)))),
      ∀ kv ∈ row, kv.1 ∈ metaCols raw ++ valColsSpec raw := by
    intro row hrow kv hkv
    obtain ⟨p, _, rfl⟩ := List.mem_map.mp hrow
    rcases List.mem_append.mp hkv with h | h
    · obtain ⟨c, hc, rfl⟩ := List.mem_map.mp h
      exact List.mem_append.mpr (Or.inl hc)
    · obtain ⟨c, hc, rfl⟩ := List.mem_map.mp h
      exact List.mem_append.mpr (Or.inr hc)
  rw [coerce_chain _ _ hkeys hcF hcV]
  have hrows : ((pairsSpec raw).map (fun p =>
      (metaCols raw).map (fun c => (c, getCell p.1 c)) ++
      (valColsSpec raw).map
        (fun c => (c, JField.prim ((p.2.lookup c).getD .snull))))).map
        (fun row => row.map (fun kv => (kv.1, coerceAt kv.1 kv.2))) =
      concatMap (fun r => (dataList r).map
        (finalRow (metaCols raw) (valColsSpec raw) r)) raw := by
    rw [List.map_map]
    unfold pairsSpec
    rw [map_concatMap]
    apply concatMap_congr
    intro r _
    rw [List.map_map]
    apply map_congr_mem
    intro o _
    simp only [Function.comp_apply, finalRow, List.map_append, List.map_map]
    rfl
  rw [hrows]
  rfl

/-- Conversely, a successful run is either the empty-input short-circuit or
the success path above (every series' `Data` non-empty, neither converted
column label duplicated). -/
theorem getDatosTabla_ok_elim {raw : List Rec} {df : Df}
    (h : getDatosTabla raw = .ok df) :
    (raw = [] ∧ df = ⟨[], []⟩) ∨
    ((∀ r ∈ raw, nonemptyData r) ∧ raw ≠ [] ∧
     (metaCols raw ++ valColsSpec raw).count "Fecha" ≤ 1 ∧
     (metaCols raw ++ valColsSpec raw).count "Valor" ≤ 1 ∧
     df = flattenDf raw) := by
  cases raw with
  | nil =>
      left
      refine ⟨rfl, ?_⟩
      have : (Except.ok ⟨[], []⟩ : Except PdError Df) = .ok df := h
      cases this; rfl
  | cons r0 rest =>
      right
      have hall : ∀ r ∈ r0 :: rest, nonemptyData r := by
        intro r hr
        by_contra hnr
        obtain ⟨v, hv⟩ := scalar_mem_explodeData hnr
        have hmem : (r, DataCell.scalar v) ∈ exploded (r0 :: rest) :=
          mem_concatMap.mpr ⟨r, hr, List.mem_map.mpr ⟨_, hv, rfl⟩⟩
        have hnone : obsOfCells (exploded (r0 :: rest)) = none :=
          obsOfCells_none_of_scalar ⟨_, hmem, v, rfl⟩
        by_cases hd : "Data" ∈ unionKeys (r0 :: rest)
        · simp only [getDatosTabla, if_pos hd, hnone] at h
          cases h
        · simp only [getDatosTabla, if_neg hd] at h
          cases h
      have hcF : (metaCols (r0 :: rest) ++ valColsSpec (r0 :: rest)).count "Fecha" ≤ 1 := by
        by_contra hc
        push_neg at hc
        rw [getDatosTabla_eq_convert (by simp) hall, convertCols_dup_fecha (by omega)] at h
        exact Except.noConfusion h
      have hcV : (metaCols (r0 :: rest) ++ valColsSpec (r0 :: rest)).count "Valor" ≤ 1 := by
        by_contra hc
        push_neg at hc
        rw [getDatosTabla_eq_convert (by simp) hall,
          convertCols_dup_valor hcF (by omega)] at h
        exact Except.noConfusion h
      refine ⟨hall, by simp, hcF, hcV, ?_⟩
      rw [getDatosTabla_ok_of_nonempty (by simp) hall hcF hcV] at h
      cases h; rfl

/-! ### Characterization of the plain-loop flattener -/

theorem pyDictGet_ok {r : Rec} {k : String} {v : JField}
    (h : pyDictGet r k = .ok v) : r.lookup k = some v := by
  unfold pyDictGet at h
  cases hl : r.lookup k with
  | none => rw [hl] at h; exact Except.noConfusion h
  | some w => rw [hl] at h; cases h; rfl

theorem obsGet_ok {d : Obs} {k : String} {v : Scalar}
    (h : obsGet d k = .ok v) : d.lookup k = some v := by
  unfold obsGet at h
  cases hl : d.lookup k with
  | none => rw [hl] at h; exact Except.noConfusion h
  | some w => rw [hl] at h; cases h; rfl

theorem pyStripField_ok {f : JField} {s : String}
    (h : pyStripField f = .ok s) : ∃ s0, f = .prim (.sstr s0) ∧ s = pyStrip s0 := by
  cases f with
  | prim v =>
      cases v with
      | sstr s0 => exact ⟨s0, rfl, by cases h; rfl⟩
      | snull => exact Except.noConfusion h
      | snum q => exact Except.noConfusion h
      | sdate ms => exact Except.noConfusion h
  | arr os => exact Except.noConfusion h

theorem filaDe_ok {serie : Rec} {d : Obs} {row : Row}
    (h : filaDe serie d = .ok row) : row = filaSpec serie d := by
  unfold filaDe at h
  cases h1 : pyDictGet serie "Nombre" with
  | error e => simp only [h1] at h; exact Except.noConfusion h
  | ok nombre =>
  simp only [h1] at h
  cases h2 : pyStripField nombre with
  | error e => simp only [h2] at h; exact Except.noConfusion h
  | ok nombreS =>
  simp only [h2] at h
  cases h3 : pyDictGet serie "COD" with
  | error e => simp only [h3] at h; exact Except.noConfusion h
  | ok cod =>
  simp only [h3] at h
  cases h4 : obsGet d "FK_Periodo" with
  | error e => simp only [h4] at h; exact Except.noConfusion h
  | ok periodo =>
  simp only [h4] at h
  cases h5 : obsGet d "Anyo" with
  | error e => simp only [h5] at h; exact Except.noConfusion h
  | ok anyo =>
  simp only [h5] at h
  cases h6 : obsGet d "Valor" with
  | error e => simp only [h6] at h; exact Except.noConfusion h
  | ok valor =>
  simp only [h6] at h
  cases h
  obtain ⟨s0, rfl, rfl⟩ := pyStripField_ok h2
  have hn := pyDictGet_ok h1
  have hc := pyDictGet_ok h3
  have hp := obsGet_ok h4
  have ha := obsGet_ok h5
  have hv := obsGet_ok h6
  simp [filaSpec, hn, hc, hp, ha, hv]

theorem serieData_ok_dataList {s : Rec} {os : List Obs}
    (h : serieData s = .ok os) : os = dataList s := by
  unfold serieData at h
  cases hl : s.lookup "Data" with
  | none => rw [hl] at h; cases h; simp [dataList, hl]
  | some f =>
      cases f with
      | arr os' => rw [hl] at h; cases h; simp [dataList, hl]
      | prim v => rw [hl] at h; exact Except.noConfusion h

theorem filasDe_ok {serie : Rec} {os : List Obs} {rows : List Row}
    (h : filasDe serie os = .ok rows) : rows = os.map (filaSpec serie) := by
  induction os generalizing rows with
  | nil => cases h; rfl
  | cons d ds ih =>
      unfold filasDe at h
      cases h1 : filaDe serie d with
      | error e => rw [h1] at h; exact Except.noConfusion h
      | ok fila =>
        rw [h1] at h
        cases h2 : filasDe serie ds with
        | error e => rw [h2] at h; exact Except.noConfusion h
        | ok rest =>
            rw [h2] at h; cases h
            rw [List.map_cons, filaDe_ok h1, ih h2]

theorem serieRows_ok {s : Rec} {rows : List Row}
    (h : serieRows s = .ok rows) : rows = (dataList s).map (filaSpec s) := by
  unfold serieRows at h
  cases hd : serieData s with
  | error e => rw [hd] at h; exact Except.noConfusion h
  | ok os =>
      rw [hd] at h
      rw [serieData_ok_dataList hd] at h
      exact filasDe_ok h

theorem serieRows_of_no_data {s : Rec} (h : s.lookup "Data" = none) :
    serieRows s = .ok [] := by
  simp [serieRows, serieData, h, filasDe]

theorem serieRows_of_empty_data {s : Rec} (h : s.lookup "Data" = some (.arr [])) :
    serieRows s = .ok [] := by
  simp [serieRows, serieData, h, filasDe]

theorem descargarAux_skip {xs ys : List Rec} {s : Rec}
    (h : serieRows s = .ok []) :
    descargarAux (xs ++ s :: ys) = descargarAux (xs ++ ys) := by
  induction xs with
  | nil =>
      simp only [List.nil_append, descargarAux, h]
      cases hys : descargarAux ys with
      | error e => rfl
      | ok rest' => simp
  | cons x xs ih =>
      simp only [List.cons_append, descargarAux, List.append_eq, ih]

theorem descargarAux_ok {datos : List Rec} {rows : List Row}
    (h : descargarAux datos = .ok rows) :
    rows = concatMap (fun s => (dataList s).map (filaSpec s)) datos := by
  induction datos generalizing rows with
  | nil => cases h; rfl
  | cons s rest ih =>
      unfold descargarAux at h
      cases h1 : serieRows s with
      | error e => rw [h1] at h; exact Except.noConfusion h
      | ok rs =>
        rw [h1] at h
        cases h2 : descargarAux rest with
        | error e => rw [h2] at h; exact Except.noConfusion h
        | ok rest' =>
            rw [h2] at h; cases h
            rw [concatMap_cons, serieRows_ok h1, ih h2]

theorem coerceAt_null (c : String) : coerceAt c (.prim .snull) = .prim .snull := by
  unfold coerceAt
  by_cases h1 : c = "Fecha"
  · simp [h1, toDatetimeCell, toDatetimeScalar]
  · by_cases h2 : c = "Valor"
    · simp [h1, h2, toNumericCell, toNumericScalar]
    · simp [h1, h2]

/-- Any series whose `Data` cell explodes to a scalar (empty list, missing
field, non-list value) makes `json_normalize` — and hence the whole
flattener — raise, provided `Data` is a column at all. -/
theorem getDatosTabla_error_attr {raw : List Rec} {r : Rec} (hr : r ∈ raw)
    (hnr : ¬ nonemptyData r) (hd : "Data" ∈ unionKeys raw) :
    getDatosTabla raw = .error .attrError := by
  cases raw with
  | nil => simp at hr
  | cons r0 rest =>
    obtain ⟨v, hv⟩ := scalar_mem_explodeData hnr
    have hmem : (r, DataCell.scalar v) ∈ exploded (r0 :: rest) :=
      mem_concatMap.mpr ⟨r, hr, List.mem_map.mpr ⟨_, hv, rfl⟩⟩
    have hnone : obsOfCells (exploded (r0 :: rest)) = none :=
      obsOfCells_none_of_scalar ⟨_, hmem, v, rfl⟩
    simp only [getDatosTabla, if_pos hd, hnone]

theorem not_nonemptyData_of_empty {r : Rec}
    (h : r.lookup "Data" = some (.arr [])) : ¬ nonemptyData r := by
  rintro ⟨os, hl, hne⟩
  have heq := h.symm.trans hl
  cases heq
  exact hne rfl

theorem not_nonemptyData_of_none {r : Rec}
    (h : r.lookup "Data" = none) : ¬ nonemptyData r := by
  rintro ⟨os, hl, _⟩
  rw [h] at hl
  cases hl

/-! ### Concrete inputs used by witnesses and counterexamples -/

/-- A response whose single series has an empty `Data` list (claim C1). -/
def emptyDataCOD : List Rec := [[("COD", .prim (.sstr "c1")), ("Data", .arr [])]]

/-- A response whose single series has an empty `Data` list (claim C2). -/
def emptyDataNombre : List Rec := [[("Nombre", .prim (.sstr "S1")), ("Data", .arr [])]]

/-- Two well-formed series with two and one observations. -/
def dosSeries : List Rec :=
  [[("Nombre", .prim (.sstr "S1")), ("COD", .prim (.sstr "A")),
    ("Data", .arr [[("Fecha", .snum 0), ("Valor", .snum 11)],
                   [("Fecha", .snum 86400000), ("Valor", .snum 12)]])],
   [("Nombre", .prim (.sstr "S2")), ("COD", .prim (.sstr "B")),
    ("Data", .arr [[("Fecha", .snum 172800000), ("Valor", .snum 21)]])]]

/-- The coercion scenario of the specification: one series, an observation
with a numeric-string value and one with a non-numeric value. -/
def scenario : List Rec :=
  [[("Nombre", .prim (.sstr "S1")), ("COD", .prim (.sstr "C1")),
    ("Data", .arr [[("Fecha", .snum 0), ("Valor", .sstr "10")],
                   [("Fecha", .snum 86400000), ("Valor", .sstr "bad")]])]]

/-- The flattened table of `scenario`. -/
def scenarioDf : Df :=
  ⟨["Nombre", "COD", "Fecha", "Valor"],
   [[("Nombre", .prim (.sstr "S1")), ("COD", .prim (.sstr "C1")),
     ("Fecha", .prim (.sdate 0)), ("Valor", .prim (.snum 10))],
    [("Nombre", .prim (.sstr "S1")), ("COD", .prim (.sstr "C1")),
     ("Fecha", .prim (.sdate 86400000)), ("Valor", .prim .snull)]]⟩

/-! ### The claims -/

/-- C1 (counterexample): the claim asserts that for EVERY input the flattened
row count equals the sum of the series' observation counts.  On a response
whose single series has `Data = []` the sum is `0`, but `get_datos_tabla`
produces no table at all: `explode` turns the empty list into NaN and
`json_normalize` raises `AttributeError` on it. -/
theorem claim_C1_cex : getDatosTabla emptyDataCOD = .error .attrError := by decide

/-- C1 (amended): for an empty response the flattener returns an empty table
without error, and for every response in which each series carries a
non-empty observation list, the flattened row count equals the sum over the
series of their observation counts.  (A series with an empty or missing
observation list instead makes the transform raise — see the
counterexample.) -/
theorem claim_C1 :
    getDatosTabla [] = .ok ⟨[], []⟩ ∧
    ∀ raw df, (∀ r ∈ raw, nonemptyData r) → getDatosTabla raw = .ok df →
      df.rows.length = (raw.map (fun r => (dataList r).length)).sum := by
  refine ⟨rfl, ?_⟩
  intro raw df _ h
  rcases getDatosTabla_ok_elim h with ⟨rfl, rfl⟩ | ⟨_, _, _, _, rfl⟩
  · rfl
  · show (flattenDf raw).rows.length = _
    simp only [flattenDf, length_concatMap, List.length_map]

/-- C1 (witness): on two series with two and one observations the flattener
succeeds and yields `2 + 1 = 3` rows. -/
theorem claim_C1_witness :
    (flattenDf dosSeries).rows.length = (dosSeries.map (fun r => (dataList r).length)).sum :=
  claim_C1.2 dosSeries (flattenDf dosSeries)
    (by
      intro r hr
      rcases List.mem_cons.mp hr with rfl | hr'
      · exact ⟨_, rfl, by decide⟩
      · rcases List.mem_cons.mp hr' with rfl | hr''
        · exact ⟨_, rfl, by decide⟩
        · simp at hr'')
    (by decide)

/-- C2 (counterexample): the claim asserts that a series with an empty
observation list contributes zero rows to the flattened output.  In
`get_datos_tabla` there is no output at all: the transform raises
`AttributeError` (the exploded NaN reaches `json_normalize`). -/
theorem claim_C2_cex : getDatosTabla emptyDataNombre = .error .attrError := by decide

/-- C2 (amended): in `get_datos_tabla`, a series with an empty `Data` list
makes the whole transform raise `AttributeError` — so it contributes no row
(and in particular no all-null row), but only because there is no output at
all.  In the simple variant (`descargar_tabla_ine_json`) the claim does
hold: such a series contributes exactly zero rows, the result being
identical to the run without that series. -/
theorem claim_C2 :
    (∀ raw r, r ∈ raw → r.lookup "Data" = some (.arr []) →
      getDatosTabla raw = .error .attrError) ∧
    (∀ xs ys s, s.lookup "Data" = some (.arr []) →
      descargar_tabla_ine_json (xs ++ s :: ys) = descargar_tabla_ine_json (xs ++ ys)) := by
  constructor
  · intro raw r hr h
    exact getDatosTabla_error_attr hr (not_nonemptyData_of_empty h)
      (mem_unionKeys.mpr ⟨r, hr, lookup_eq_some_key_mem h⟩)
  · intro xs ys s h
    exact descargarAux_skip (serieRows_of_empty_data h)

/-- C2 (witness): both parts at concrete inputs — the pandas flattener
raises on `[S1, S-empty]`, and the loop variant returns the same rows with
and without the empty series. -/
theorem claim_C2_witness :
    getDatosTabla (dosSeries ++ [[("Nombre", JField.prim (.sstr "E")), ("Data", .arr [])]])
      = .error .attrError ∧
    descargar_tabla_ine_json
        ([] ++ [("Nombre", JField.prim (.sstr "E")), ("Data", JField.arr [])] :: dosSeries)
      = descargar_tabla_ine_json ([] ++ dosSeries) :=
  ⟨claim_C2.1 _ [("Nombre", JField.prim (.sstr "E")), ("Data", JField.arr [])]
      (by decide) (by decide),
   claim_C2.2 [] dosSeries _ (by decide)⟩

/-- C3: order preservation.  Whenever `get_datos_tabla` succeeds, its rows
are exactly the series' observation rows flattened in input order — series
in response order, and within a series the observations in `Data` order,
each row built by `finalRow` from its own series' metadata. -/
theorem claim_C3 :
    ∀ raw df, getDatosTabla raw = .ok df →
      df.rows = concatMap (fun r =>
        (dataList r).map (finalRow (metaCols raw) (valColsSpec raw) r)) raw := by
  intro raw df h
  rcases getDatosTabla_ok_elim h with ⟨rfl, rfl⟩ | ⟨_, _, _, _, rfl⟩
  · rfl
  · rfl

/-- C3 (witness): the specification's example `[S1(o1,o2), S2(o3)]`: the
flattener succeeds and the three rows carry the observation values `11`,
`12`, `21` in exactly that order. -/
theorem claim_C3_witness :
    (flattenDf dosSeries).rows = concatMap (fun r =>
      (dataList r).map (finalRow (metaCols dosSeries) (valColsSpec dosSeries) r)) dosSeries ∧
    getDatosTabla dosSeries = .ok (flattenDf dosSeries) ∧
    (flattenDf dosSeries).rows.map (fun row => row.lookup "Valor") =
      [some (.prim (.snum 11)), some (.prim (.snum 12)), some (.prim (.snum 21))] :=
  ⟨claim_C3 dosSeries (flattenDf dosSeries) (by decide), by decide, by decide⟩

/-- C4: metadata broadcast.  Whenever `get_datos_tabla` succeeds, every row
derived from a series `r` is in the output, and its metadata prefix — the
cells of all non-`Data` response columns — equals the column-wise coercion
of `r`'s own fields, the same for every observation of `r` and depending on
no other series. -/
theorem claim_C4 :
    ∀ raw df, getDatosTabla raw = .ok df → ∀ r ∈ raw, ∀ o ∈ dataList r,
      finalRow (metaCols raw) (valColsSpec raw) r o ∈ df.rows ∧
      (finalRow (metaCols raw) (valColsSpec raw) r o).take (metaCols raw).length
        = (metaCols raw).map (fun c => (c, coerceAt c (getCell r c))) := by
  intro raw df h r hr o ho
  rcases getDatosTabla_ok_elim h with ⟨rfl, rfl⟩ | ⟨_, _, _, _, rfl⟩
  · simp at hr
  · constructor
    · show _ ∈ (flattenDf raw).rows
      exact mem_concatMap.mpr ⟨r, hr, List.mem_map.mpr ⟨o, ho, rfl⟩⟩
    · unfold finalRow
      rw [show (metaCols raw).length =
        ((metaCols raw).map (fun c => (c, coerceAt c (getCell r c)))).length from
        (List.length_map _ _).symm]
      exact take_length_append _ _

/-- C4 (witness): instantiated on the two-series input, first series, first
observation. -/
theorem claim_C4_witness :
    finalRow (metaCols dosSeries) (valColsSpec dosSeries)
        [("Nombre", JField.prim (.sstr "S1")), ("COD", JField.prim (.sstr "A")),
         ("Data", JField.arr [[("Fecha", .snum 0), ("Valor", .snum 11)],
                              [("Fecha", .snum 86400000), ("Valor", .snum 12)]])]
        [("Fecha", Scalar.snum 0), ("Valor", Scalar.snum 11)] ∈ (flattenDf dosSeries).rows ∧
    (finalRow (metaCols dosSeries) (valColsSpec dosSeries)
        [("Nombre", JField.prim (.sstr "S1")), ("COD", JField.prim (.sstr "A")),
         ("Data", JField.arr [[("Fecha", .snum 0), ("Valor", .snum 11)],
                              [("Fecha", .snum 86400000), ("Valor", .snum 12)]])]
        [("Fecha", Scalar.snum 0), ("Valor", Scalar.snum 11)]).take
          (metaCols dosSeries).length
      = (metaCols dosSeries).map (fun c => (c, coerceAt c (getCell
          [("Nombre", JField.prim (.sstr "S1")), ("COD", JField.prim (.sstr "A")),
           ("Data", JField.arr [[("Fecha", .snum 0), ("Valor", .snum 11)],
                                [("Fecha", .snum 86400000), ("Valor", .snum 12)]])] c))) :=
  claim_C4 dosSeries (flattenDf dosSeries) (by decide) _ (by decide) _ (by decide)

/-- C5: per-field coercion.  A reference timestamp of `0` converts to the
epoch date and an unparseable one to null; the value `"12.5"` converts to
the number `12.5` and `"N/A"` to null; both conversions are total — on any
cell they yield either null or a converted value, never an error — and on
the specification's scenario the whole pipeline succeeds with exactly the
coerced cells. -/
theorem claim_C5 :
    toDatetimeCell (.prim (.snum 0)) = .prim (.sdate 0) ∧
    toDatetimeCell (.prim (.sstr "garbage")) = .prim .snull ∧
    toNumericCell (.prim (.sstr "12.5")) = .prim (.snum (mkRat 25 2)) ∧
    toNumericCell (.prim (.sstr "N/A")) = .prim .snull ∧
    (∀ v, toNumericCell v = .prim .snull ∨ ∃ q, toNumericCell v = .prim (.snum q)) ∧
    (∀ v, toDatetimeCell v = .prim .snull ∨ ∃ q, toDatetimeCell v = .prim (.sdate q)) ∧
    getDatosTabla scenario = .ok scenarioDf := by
  refine ⟨by decide, by decide, by decide, by decide, ?_, ?_, by decide⟩
  · intro v
    match v with
    | .arr _ => exact Or.inl rfl
    | .prim .snull => exact Or.inl rfl
    | .prim (.snum q) => exact Or.inr ⟨q, rfl⟩
    | .prim (.sdate ms) => exact Or.inl rfl
    | .prim (.sstr s) =>
        simp only [toNumericCell, toNumericScalar]
        cases parseFloat s with
        | none => exact Or.inl rfl
        | some q => exact Or.inr ⟨q, rfl⟩
  · intro v
    match v with
    | .arr _ => exact Or.inl rfl
    | .prim .snull => exact Or.inl rfl
    | .prim (.snum q) => exact Or.inr ⟨q, rfl⟩
    | .prim (.sdate ms) => exact Or.inr ⟨ms, rfl⟩
    | .prim (.sstr s) =>
        simp only [toDatetimeCell, toDatetimeScalar]
        cases parseFloat s with
        | none => exact Or.inl rfl
        | some q => exact Or.inr ⟨q, rfl⟩

/-- A response whose second series lacks the `Data` field entirely. -/
def missingDataCex : List Rec :=
  [[("Nombre", .prim (.sstr "A")), ("Data", .arr [[("Valor", .snum 1)]])],
   [("Nombre", .prim (.sstr "B"))]]

/-- Two series, the first missing its `Nombre` field and its observation
missing the `Anyo` field carried by the second series' observation. -/
def faltanCampos : List Rec :=
  [[("Data", .arr [[("Valor", .sstr "x")]])],
   [("Nombre", .prim (.sstr "B")),
    ("Data", .arr [[("Valor", .snum 2), ("Anyo", .snum 2024)]])]]

/-- A series record without a `Nombre` field, used for the row of
`faltanCampos`' first series. -/
def serieSinNombre : Rec := [("Data", .arr [[("Valor", .sstr "x")]])]

/-- C6 (counterexample): the claim asserts that a record missing an expected
field never fails the whole operation.  A series record missing its `Data`
field falsifies it: `pd.DataFrame` fills the `Data` cell with NaN, `explode`
keeps it, and `json_normalize` raises, aborting the entire flatten. -/
theorem claim_C6_cex : getDatosTabla missingDataCex = .error .attrError := by decide

/-- C6 (amended): missing SCALAR fields are tolerated exactly as claimed —
the flatten still succeeds (whenever every series has a non-empty `Data`
list and no series-level field reuses the converted column names `Fecha` /
`Valor` carried by the observations) and only the affected row's cell is
null: a series missing a metadata column gets a null cell in all its rows,
an observation missing a value column gets a null cell in its row.  However
a series missing the `Data` field itself aborts the whole transform with an
error, and so does a response whose metadata duplicates the `Fecha`/`Valor`
column (the conversion then receives a two-column selection and raises). -/
theorem claim_C6 :
    (∀ raw, raw ≠ [] → (∀ r ∈ raw, nonemptyData r) →
      (metaCols raw ++ valColsSpec raw).count "Fecha" ≤ 1 →
      (metaCols raw ++ valColsSpec raw).count "Valor" ≤ 1 →
      ∃ df, getDatosTabla raw = .ok df) ∧
    (∀ raw df, getDatosTabla raw = .ok df → ∀ r ∈ raw, ∀ o ∈ dataList r,
      ∀ c ∈ metaCols raw, r.lookup c = none →
        finalRow (metaCols raw) (valColsSpec raw) r o ∈ df.rows ∧
        (finalRow (metaCols raw) (valColsSpec raw) r o).lookup c = some (.prim .snull)) ∧
    (∀ raw df, getDatosTabla raw = .ok df → ∀ r ∈ raw, ∀ o ∈ dataList r,
      ∀ c ∈ valColsSpec raw, c ∉ metaCols raw → o.lookup c = none →
        (finalRow (metaCols raw) (valColsSpec raw) r o).lookup c = some (.prim .snull)) ∧
    (∀ raw r, r ∈ raw → r.lookup "Data" = none →
      ∃ e, getDatosTabla raw = .error e) ∧
    getDatosTabla [[("Valor", .prim (.snum 5)), ("Data", .arr [[("Valor", .snum 1)]])]] =
      .error .typeError := by
  refine ⟨?_, ?_, ?_, ?_, by decide⟩
  · intro raw hne hall hcF hcV
    exact ⟨flattenDf raw, getDatosTabla_ok_of_nonempty hne hall hcF hcV⟩
  · intro raw df h r hr o ho c hc hnone
    rcases getDatosTabla_ok_elim h with ⟨rfl, rfl⟩ | ⟨_, _, _, _, rfl⟩
    · simp at hr
    · refine ⟨mem_concatMap.mpr ⟨r, hr, List.mem_map.mpr ⟨o, ho, rfl⟩⟩, ?_⟩
      unfold finalRow
      rw [lookup_append_of_some (lookup_keyed_map_mem _ hc)]
      rw [show getCell r c = .prim .snull from by simp [getCell, hnone]]
      rw [coerceAt_null]
  · intro raw df h r hr o ho c hcv hcm hnone
    rcases getDatosTabla_ok_elim h with ⟨rfl, rfl⟩ | ⟨_, _, _, _, rfl⟩
    · simp at hr
    · unfold finalRow
      rw [lookup_append_of_none (lookup_keyed_map_not_mem _ hcm)]
      rw [lookup_keyed_map_mem _ hcv]
      rw [show (o.lookup c).getD Scalar.snull = Scalar.snull from by rw [hnone]; rfl]
      rw [coerceAt_null]
  · intro raw r hr hnone
    by_cases hd : "Data" ∈ unionKeys raw
    · exact ⟨.attrError, getDatosTabla_error_attr hr (not_nonemptyData_of_none hnone) hd⟩
    · cases raw with
      | nil => simp at hr
      | cons r0 rest =>
          exact ⟨.keyError "Data", by simp only [getDatosTabla, if_neg hd]⟩

/-- C6 (witness): on `faltanCampos`, the first series' row is produced with
a null `Nombre` cell and a null `Anyo` cell, and a response whose only
series lacks `Data` makes the flattener raise. -/
theorem claim_C6_witness :
    (finalRow (metaCols faltanCampos) (valColsSpec faltanCampos) serieSinNombre
        [("Valor", Scalar.sstr "x")] ∈ (flattenDf faltanCampos).rows ∧
      (finalRow (metaCols faltanCampos) (valColsSpec faltanCampos) serieSinNombre
        [("Valor", Scalar.sstr "x")]).lookup "Nombre" = some (.prim .snull)) ∧
    (finalRow (metaCols faltanCampos) (valColsSpec faltanCampos) serieSinNombre
        [("Valor", Scalar.sstr "x")]).lookup "Anyo" = some (.prim .snull) ∧
    (∃ e, getDatosTabla [[("Nombre", JField.prim (.sstr "C"))]] = .error e) :=
  ⟨claim_C6.2.1 faltanCampos (flattenDf faltanCampos) (by decide) serieSinNombre
      (by decide) [("Valor", Scalar.sstr "x")] (by decide) "Nombre" (by decide) (by decide),
   claim_C6.2.2.1 faltanCampos (flattenDf faltanCampos) (by decide) serieSinNombre
      (by decide) [("Valor", Scalar.sstr "x")] (by decide) "Anyo" (by decide) (by decide)
      (by decide),
   claim_C6.2.2.2.1 [[("Nombre", JField.prim (.sstr "C"))]] [("Nombre", JField.prim (.sstr "C"))]
      (by decide) (by decide)⟩

/-- C7: the simple variant.  Whenever `descargar_tabla_ine_json` succeeds,
its rows are exactly one `filaSpec` row per observation in order: each row
has exactly the five fields `serie` (the series name with surrounding
whitespace stripped), `codigo` (the series `COD`), `periodo`, `anyo` and
`valor` (the observation's fields, the value carried over unchanged — no
date or numeric conversion), and nothing else is broadcast. -/
theorem claim_C7 :
    ∀ datos rows, descargar_tabla_ine_json datos = .ok rows →
      rows = concatMap (fun s => (dataList s).map (filaSpec s)) datos ∧
      ∀ row ∈ rows, recKeys row = ["serie", "codigo", "periodo", "anyo", "valor"] := by
  intro datos rows h
  have h1 : rows = concatMap (fun s => (dataList s).map (filaSpec s)) datos :=
    descargarAux_ok h
  refine ⟨h1, ?_⟩
  intro row hrow
  rw [h1] at hrow
  obtain ⟨s, _, hrow2⟩ := mem_concatMap.mp hrow
  obtain ⟨d, _, rfl⟩ := List.mem_map.mp hrow2
  rfl

/-- One series with one observation, the name carrying surrounding blanks. -/
def utilsDatos : List Rec :=
  [[("Nombre", .prim (.sstr " IPC ")), ("COD", .prim (.sstr "C1")),
    ("Data", .arr [[("FK_Periodo", .snum 1), ("Anyo", .snum 2024), ("Valor", .snum 3)]])]]

/-- The single row `descargar_tabla_ine_json` builds from `utilsDatos`. -/
def utilsRows : List Row :=
  [[("serie", .prim (.sstr "IPC")), ("codigo", .prim (.sstr "C1")),
    ("periodo", .prim (.snum 1)), ("anyo", .prim (.snum 2024)),
    ("valor", .prim (.snum 3))]]

/-- C7 (witness): the run on `utilsDatos` succeeds, producing exactly the
five-field row with the stripped name `"IPC"`. -/
theorem claim_C7_witness :
    descargar_tabla_ine_json utilsDatos = .ok utilsRows ∧
    utilsRows = concatMap (fun s => (dataList s).map (filaSpec s)) utilsDatos ∧
    ∀ row ∈ utilsRows, recKeys row = ["serie", "codigo", "periodo", "anyo", "valor"] :=
  ⟨by decide,
   (claim_C7 utilsDatos utilsRows (by decide)).1,
   (claim_C7 utilsDatos utilsRows (by decide)).2⟩

/-- A one-row operations response. -/
def opsData : List Rec :=
  [[("Id", .prim (.snum 25)), ("Codigo", .prim (.sstr "IPC")),
    ("Nombre", .prim (.sstr "Indice de Precios de Consumo"))]]

/-- The operations table extracted from `opsData`. -/
def opsDf : List OpRow :=
  [⟨.prim (.snum 25), .prim (.sstr "IPC"), .prim (.sstr "Indice de Precios de Consumo")⟩]

/-- C8 (counterexample): the claim asserts the command prints "no results"
and exits 0 whenever the (possibly filtered) list is empty, INCLUDING when
the API returns an empty sequence.  On an empty response
`pd.DataFrame(data)[["Id","Codigo","Nombre"]]` raises `KeyError` (the empty
frame has no columns), so the command errors and `main` exits 1. -/
theorem claim_C8_cex :
    cmd_operaciones [] (some "zzz") = .error (.keyError "Id Codigo Nombre") ∧
    opsExit [] (some "zzz") = 1 := by decide

/-- C8 (amended): whenever the operations fetch itself succeeds (which
requires a non-empty response carrying the three columns), the command with
a non-empty search text free of regex metacharacters filters by
case-insensitive substring match on the name (`nombreMatch` — on such texts
the regex search `str.contains` performs is exactly the literal substring
test), exits 0, prints the no-results message exactly when the filtered
list is empty, and otherwise lists the filtered rows.  An empty API
response instead raises `KeyError` and exits 1 (see the counterexample);
a search text containing regex metacharacters is matched as a regular
expression — or, if it is not a valid regex (e.g. `"("`), raises
`re.error` and exits 1 — and is outside this statement's scope. -/
theorem claim_C8 :
    ∀ data b df, get_operaciones data = .ok df → b ≠ "" → regexLiteral b = true →
      opsExit data (some b) = 0 ∧
      (cmd_operaciones data (some b) = .ok .noResults ↔
        df.filter (fun row => nombreMatch row.nombre b) = []) ∧
      (df.filter (fun row => nombreMatch row.nombre b) ≠ [] →
        cmd_operaciones data (some b) =
          .ok (.listing (df.filter (fun row => nombreMatch row.nombre b)))) := by
  intro data b df h hb _
  have hcmd : cmd_operaciones data (some b) =
      if (df.filter (fun row => nombreMatch row.nombre b)).isEmpty
      then .ok .noResults
      else .ok (.listing (df.filter (fun row => nombreMatch row.nombre b))) := by
    simp only [cmd_operaciones, h, if_pos hb]
  cases hfil : df.filter (fun row => nombreMatch row.nombre b) with
  | nil =>
      rw [hfil] at hcmd
      simp only [List.isEmpty_nil, if_true] at hcmd
      exact ⟨by simp [opsExit, hcmd], by simp [hcmd, hfil],
        fun hne => absurd rfl hne⟩
  | cons q qs =>
      rw [hfil] at hcmd
      simp at hcmd
      refine ⟨by simp [opsExit, hcmd], ?_, ?_⟩
      · constructor
        · intro hno
          rw [hcmd] at hno
          simp at hno
        · intro hempty
          exact List.noConfusion hempty
      · intro _
        rw [hcmd]

/-- C8 (witness): on the one-row response, searching for the
metacharacter-free text `"zzz_no_match"` yields the no-results outcome with
exit code 0. -/
theorem claim_C8_witness :
    opsExit opsData (some "zzz_no_match") = 0 ∧
    (cmd_operaciones opsData (some "zzz_no_match") = .ok .noResults ↔
      opsDf.filter (fun row => nombreMatch row.nombre "zzz_no_match") = []) ∧
    (opsDf.filter (fun row => nombreMatch row.nombre "zzz_no_match") ≠ [] →
      cmd_operaciones opsData (some "zzz_no_match") =
        .ok (.listing (opsDf.filter (fun row => nombreMatch row.nombre "zzz_no_match")))) :=
  claim_C8 opsData "zzz_no_match" opsDf (by decide) (by decide) (by decide)

/-- One series with six observations, values `1` to `6`. -/
def seisObs : List Rec :=
  [[("Nombre", .prim (.sstr "S")),
    ("Data", .arr [[("Fecha", .snum 0), ("Valor", .snum 1)],
                   [("Fecha", .snum 86400000), ("Valor", .snum 2)],
                   [("Fecha", .snum 172800000), ("Valor", .snum 3)],
                   [("Fecha", .snum 259200000), ("Valor", .snum 4)],
                   [("Fecha", .snum 345600000), ("Valor", .snum 5)],
                   [("Fecha", .snum 432000000), ("Valor", .snum 6)]])]]

/-- C9: the preview bug.  The claim (like the label the command prints,
"últimos 5 registros") says the preview shows the LAST rows of the
flattened table.  The code calls `df[cols_vista].head()`, which takes the
FIRST five: on a six-row table the preview holds the rows with values
`1..5` while the last five are `2..6` — the code contradicts its own
output label, so the code, not the claim, is at fault. -/
theorem claim_C9 :
    (okOf (getDatosTabla seisObs)).map (fun df => df.rows.length) = some 6 ∧
    (cmdDatosPreview seisObs).map (fun rows => rows.map (fun row => row.lookup "Valor")) =
      some [some (.prim (.snum 1)), some (.prim (.snum 2)), some (.prim (.snum 3)),
            some (.prim (.snum 4)), some (.prim (.snum 5))] ∧
    ((okOf (getDatosTabla seisObs)).map vistaUltimos).map
        (fun rows => rows.map (fun row => row.lookup "Valor")) =
      some [some (.prim (.snum 2)), some (.prim (.snum 3)), some (.prim (.snum 4)),
            some (.prim (.snum 5)), some (.prim (.snum 6))] ∧
    cmdDatosPreview seisObs ≠ (okOf (getDatosTabla seisObs)).map vistaUltimos := by
  refine ⟨by decide, by decide, by decide, by decide⟩

/-- C10: in the simple variant, a series record lacking the `Data` field
iterates the default `[]` — it contributes zero rows, touches none of its
other fields, and the run returns exactly what it returns without that
series. -/
theorem claim_C10 :
    ∀ xs ys s, s.lookup "Data" = none →
      serieRows s = .ok [] ∧
      descargar_tabla_ine_json (xs ++ s :: ys) = descargar_tabla_ine_json (xs ++ ys) := by
  intro xs ys s h
  exact ⟨serieRows_of_no_data h, descargarAux_skip (serieRows_of_no_data h)⟩

/-- C10 (witness): inserting a `Data`-less series in front of `utilsDatos`
changes nothing. -/
theorem claim_C10_witness :
    serieRows [("Nombre", JField.prim (.sstr "X"))] = .ok [] ∧
    descargar_tabla_ine_json ([] ++ [("Nombre", JField.prim (.sstr "X"))] :: utilsDatos) =
      descargar_tabla_ine_json ([] ++ utilsDatos) :=
  claim_C10 [] utilsDatos [("Nombre", JField.prim (.sstr "X"))] (by decide)

end INE
